import Mathlib

/-!
Verification of the Ordenate conversational finance backend (src/server.js).

The Lean definitions below are a shallow embedding of the relevant
JavaScript functions.  JavaScript numbers are modelled as `ℚ` (or `Nat`/`ℤ`
where the source only handles integers); a JavaScript division whose result
may be non-finite (`NaN`/`Infinity`) is modelled by `jsDiv`, which returns
`none` exactly when the denominator is `0`.  Database tables are modelled as
Lean lists of rows, and each SQL statement is translated to the
corresponding pure list operation.  Regular-expression matching in
`extractReminderDay` / `extractAmount` is implemented directly on
`List Char`, following the concrete patterns of the source.
-/

namespace Ordenate

/-- Math.round of JavaScript: round half away from zero toward +infinity,
which for every real input equals the floor of `x + 1/2`. -/
def jsRound (x : ℚ) : ℤ := ⌊x + 1/2⌋

/-- JavaScript division where a zero denominator yields a non-finite value
(`NaN` when the numerator is also 0, `±Infinity` otherwise).  `none` encodes
the non-finite outcomes, `some q` the ordinary finite quotient. -/
def jsDiv (a b : ℚ) : Option ℚ := if b = 0 then none else some (a / b)

/-- Lowercasing of a character as done by `String.prototype.toLowerCase`,
restricted to ASCII plus the accented letters that occur in the source's
patterns and keyword lists. -/
def jsToLower (c : Char) : Char :=
  if c = 'Í' then 'í'
  else if c = 'Á' then 'á'
  else if c = 'É' then 'é'
  else if c = 'Ó' then 'ó'
  else if c = 'Ú' then 'ú'
  else if c = 'Ñ' then 'ñ'
  else c.toLower

/-- Strip leading whitespace (part of `String.prototype.trim`). -/
def dropLeadingWs (l : List Char) : List Char := l.dropWhile (fun c => c.isWhitespace)

/-- `message.toLowerCase().trim()` as performed at the start of
`extractReminderDay` and of the pending-action branches of
`processUserMessage`. -/
def cleanMsg (l : List Char) : List Char :=
  (dropLeadingWs (dropLeadingWs (l.map jsToLower)).reverse).reverse

/-- Match a literal character sequence at the head of the input, returning
the remaining input on success. -/
def matchLit : List Char → List Char → Option (List Char)
  | [], s => some s
  | _ :: _, [] => none
  | c :: lr, x :: xs => if x = c then matchLit lr xs else none

/-- Skip `\s*`. -/
def skipSpaces (l : List Char) : List Char := l.dropWhile (fun c => c.isWhitespace)

/-- Match the capture group `(\d{1,2})` greedily at the head of the input
and return its parsed value. -/
def takeDigits12 : List Char → Option Nat
  | [] => none
  | c :: rest =>
    if c.isDigit then
      match rest with
      | d :: _ =>
        if d.isDigit then some ((c.toNat - 48) * 10 + (d.toNat - 48))
        else some (c.toNat - 48)
      | [] => some (c.toNat - 48)
    else none

/-- Anchored pattern `^(\d{1,2})$` of `extractReminderDay`. -/
def matchOnlyDigits12 : List Char → Option Nat
  | [c] => if c.isDigit then some (c.toNat - 48) else none
  | [c, d] =>
    if c.isDigit && d.isDigit then some ((c.toNat - 48) * 10 + (d.toNat - 48)) else none
  | _ => none

/-- Pattern `d[ií]a\s*(\d{1,2})` at the current position. -/
def matchDia : List Char → Option Nat
  | 'd' :: i :: 'a' :: rest =>
    if i = 'i' || i = 'í' then takeDigits12 (skipSpaces rest) else none
  | _ => none

/-- Pattern `el\s*(\d{1,2})` at the current position. -/
def matchEl : List Char → Option Nat
  | 'e' :: 'l' :: rest => takeDigits12 (skipSpaces rest)
  | _ => none

/-- Pattern `cada\s*(\d{1,2})` at the current position. -/
def matchCada : List Char → Option Nat
  | 'c' :: 'a' :: 'd' :: 'a' :: rest => takeDigits12 (skipSpaces rest)
  | _ => none

/-- Pattern `los?\s*(\d{1,2})` at the current position; the optional greedy
`s?` is tried consumed first, then given back. -/
def matchLos : List Char → Option Nat
  | 'l' :: 'o' :: rest =>
    match rest with
    | 's' :: r2 =>
      match takeDigits12 (skipSpaces r2) with
      | some n => some n
      | none => takeDigits12 (skipSpaces rest)
    | _ => takeDigits12 (skipSpaces rest)
  | _ => none

/-- Unanchored regex search: try the matcher at each position from the left
and return the leftmost capture. -/
def searchPattern (m : List Char → Option Nat) : List Char → Option Nat
  | [] => m []
  | c :: rest =>
    match m (c :: rest) with
    | some n => some n
    | none => searchPattern m rest

/-- The five pattern attempts of `extractReminderDay`, in source order. -/
def reminderPatternCaptures (cl : List Char) : List (Option Nat) :=
  [matchOnlyDigits12 cl, searchPattern matchDia cl, searchPattern matchEl cl,
   searchPattern matchCada cl, searchPattern matchLos cl]

/-- The `for (const pattern of patterns)` loop of `extractReminderDay`: the
first matching pattern whose parsed day lies in `1..31` wins; an
out-of-range capture falls through to the next pattern. -/
def extractReminderDayLoop : List (Option Nat) → Option Nat
  | [] => none
  | none :: rest => extractReminderDayLoop rest
  | some d :: rest => if 1 ≤ d ∧ d ≤ 31 then some d else extractReminderDayLoop rest

/-- `extractReminderDay(message)` (src/server.js lines 2165-2188). -/
def extractReminderDay (message : List Char) : Option Nat :=
  extractReminderDayLoop (reminderPatternCaptures (cleanMsg message))

theorem extractReminderDayLoop_range (l : List (Option Nat)) (d : Nat)
    (h : extractReminderDayLoop l = some d) : 1 ≤ d ∧ d ≤ 31 := by
  induction l with
  | nil => simp [extractReminderDayLoop] at h
  | cons hd tl ih =>
    cases hd with
    | none => exact ih (by simpa [extractReminderDayLoop] using h)
    | some v =>
      by_cases hv : 1 ≤ v ∧ v ≤ 31
      · simp [extractReminderDayLoop, hv] at h
        omega
      · exact ih (by simpa [extractReminderDayLoop, hv] using h)

/-- C9: for every input string, `extractReminderDay` returns either `null`
or an integer day between 1 and 31 inclusive; it never returns a number
outside that range. -/
theorem c9_extract_reminder_day_range (message : List Char) (d : Nat)
    (h : extractReminderDay message = some d) : 1 ≤ d ∧ d ≤ 31 :=
  extractReminderDayLoop_range _ d h

/-- Witness for C9: the message "15" extracts day 15, which is in range. -/
theorem c9_extract_reminder_day_range_witness :
    extractReminderDay ['1', '5'] = some 15 ∧ (1 ≤ 15 ∧ 15 ≤ 31) :=
  ⟨by decide, c9_extract_reminder_day_range ['1', '5'] 15 (by decide)⟩

/-!  Pending-action dispatch (`processUserMessage`, src/server.js lines
928-1134).  `users.pending_fixed_expense_id` is a single signed integer whose
magic ranges select which pending-conversation branch inspects the next
message. -/

/-- The branch of `processUserMessage` that first inspects the message,
selected from `pending_fixed_expense_id`. -/
inductive Branch
  | bulkReminder
  | accountDeletion
  | transactionEdit (txId : ℤ)
  | pendingFixed (fixedExpenseId : ℤ)
  | markAsFixed (txId : ℤ)
  | classify
  deriving DecidableEq

/-- Dispatch on `pending_fixed_expense_id` in the order of the source:
`=== -999` (step 3.5), `=== -998` (step 3.5.5), `< -2000` (step 3.5.6,
editing transaction `Math.abs(pid + 2000)`), `> 0` (step 3.6), `< 0 and not
-999` (step 3.7); otherwise the message goes to intent classification. -/
def dispatchBranch (pid : Option ℤ) : Branch :=
  match pid with
  | none => .classify
  | some p =>
    if p = -999 then .bulkReminder
    else if p = -998 then .accountDeletion
    else if p < -2000 then .transactionEdit (-(p + 2000))
    else if p > 0 then .pendingFixed p
    else if p < 0 then .markAsFixed (-p)
    else .classify

/-- Sentinel stored when the monthly reminder batch awaits a response
(src/server.js line 5106). -/
def encodeBulkReminder : ℤ := -999

/-- Sentinel stored when account deletion awaits confirmation
(src/server.js line 2729). -/
def encodeAccountDeletionConfirm : ℤ := -998

/-- Encoding stored when a transaction edit is pending: `-2000 - tx.id`
(src/server.js lines 2823 and 2936). -/
def encodeTransactionEdit (txId : ℤ) : ℤ := -2000 - txId

/-- Encoding stored while awaiting a reminder day or an edit for a fixed
expense: the (positive) fixed-expense id itself. -/
def encodeAwaitReminderDay (fixedExpenseId : ℤ) : ℤ := fixedExpenseId

/-- Encoding stored by the mark-as-fixed suggestion flow: the negated
transaction id (src/server.js line 3642). -/
def encodeMarkAsFixedSuggestion (txId : ℤ) : ℤ := -txId

/-- C8 counterexample: the claim asserts disjointness of the encodings for
every possible transaction id, but the mark-as-fixed suggestion encoding of
transaction 2001 coincides with the transaction-edit encoding of
transaction 1, and the router dispatches it to the transaction-edit branch,
not to the mark-as-fixed branch. -/
theorem c8_encoding_collision_counterexample :
    encodeMarkAsFixedSuggestion 2001 = encodeTransactionEdit 1 ∧
    dispatchBranch (some (encodeMarkAsFixedSuggestion 2001)) = Branch.transactionEdit 1 ∧
    dispatchBranch (some (encodeMarkAsFixedSuggestion 2001)) ≠ Branch.markAsFixed 2001 := by
  refine ⟨by decide, ?_, ?_⟩ <;> decide

/-- C8 amended: the five pending-action encodings dispatch to their own
branches and to no other, provided the transaction id of a mark-as-fixed
suggestion lies in 1..2000 and is neither 998 nor 999 (transaction-edit and
fixed-expense ids may be any positive integer). -/
theorem c8_amended_dispatch_disjoint (t f m : ℤ)
    (ht : 1 ≤ t) (hf : 1 ≤ f) (hm1 : 1 ≤ m) (hm2 : m ≤ 2000)
    (hm3 : m ≠ 998) (hm4 : m ≠ 999) :
    dispatchBranch (some encodeBulkReminder) = Branch.bulkReminder ∧
    dispatchBranch (some encodeAccountDeletionConfirm) = Branch.accountDeletion ∧
    dispatchBranch (some (encodeTransactionEdit t)) = Branch.transactionEdit t ∧
    dispatchBranch (some (encodeAwaitReminderDay f)) = Branch.pendingFixed f ∧
    dispatchBranch (some (encodeMarkAsFixedSuggestion m)) = Branch.markAsFixed m := by
  unfold dispatchBranch encodeBulkReminder encodeAccountDeletionConfirm
    encodeTransactionEdit encodeAwaitReminderDay encodeMarkAsFixedSuggestion
  refine ⟨by norm_num, by norm_num, ?_, ?_, ?_⟩
  · have h1 : ¬(-2000 - t = -999) := by omega
    have h2 : ¬(-2000 - t = -998) := by omega
    have h3 : -2000 - t < -2000 := by omega
    simp only [h1, h2, h3, if_true, if_false, if_pos, if_neg]
    congr 1
    ring
  · have h1 : ¬(f = -999) := by omega
    have h2 : ¬(f = -998) := by omega
    have h3 : ¬(f < -2000) := by omega
    have h4 : f > 0 := by omega
    simp [h1, h2, h3, h4]
  · have h1 : ¬(-m = -999) := by omega
    have h2 : ¬(-m = -998) := by omega
    have h3 : ¬(-m < -2000) := by omega
    have h4 : ¬(-m > 0) := by omega
    have h5 : -m < 0 := by omega
    simp [h1, h2, h3, h4, h5]

/-- Witness for C8 amended: concrete ids 5 (transaction edit), 7 (fixed
expense) and 42 (mark-as-fixed suggestion) satisfy the hypotheses and
dispatch to their own branches. -/
theorem c8_amended_dispatch_disjoint_witness :
    dispatchBranch (some encodeBulkReminder) = Branch.bulkReminder ∧
    dispatchBranch (some encodeAccountDeletionConfirm) = Branch.accountDeletion ∧
    dispatchBranch (some (encodeTransactionEdit 5)) = Branch.transactionEdit 5 ∧
    dispatchBranch (some (encodeAwaitReminderDay 7)) = Branch.pendingFixed 7 ∧
    dispatchBranch (some (encodeMarkAsFixedSuggestion 42)) = Branch.markAsFixed 42 :=
  c8_amended_dispatch_disjoint 5 7 42 (by norm_num) (by norm_num) (by norm_num)
    (by norm_num) (by norm_num) (by norm_num)

/-!  `extractAmount` (src/server.js lines 3169-3202): parse a Chilean-style
amount from free text.  The cleaning step lowercases and deletes `$`, `.`
and `,`; the word-boundary patterns are implemented with explicit `\b`
checks (JavaScript `\w` is ASCII letters, digits and underscore). -/

/-- JavaScript `\w`. -/
def isWordChar (c : Char) : Bool := c.isAlpha || c.isDigit || c = '_'

/-- Word boundary `\b` after a consumed pattern: holds at end of input or
before a non-word character. -/
def wbEnd : List Char → Bool
  | [] => true
  | c :: _ => !isWordChar c

/-- The cleaning step of `extractAmount`: lowercase, then remove every
`$`, `.` and `,`. -/
def cleanAmount (l : List Char) : List Char :=
  (l.map jsToLower).filter (fun c => !(c = '$' || c = '.' || c = ','))

/-- Tail `\s*millon\b` shared by the million word-patterns. -/
def tailMillon (s : List Char) : Bool :=
  match matchLit ['m', 'i', 'l', 'l', 'o', 'n'] (skipSpaces s) with
  | some r => wbEnd r
  | none => false

/-- Tail `\s*millones?\b`: greedy optional `s` with backtracking. -/
def tailMillones (s : List Char) : Bool :=
  match matchLit ['m', 'i', 'l', 'l', 'o', 'n', 'e'] (skipSpaces s) with
  | some r =>
    match r with
    | 's' :: r2 => wbEnd r2 || wbEnd r
    | _ => wbEnd r
  | none => false

/-- Tail `\s*(luca|lucas)\b`: the alternation tries `luca` first. -/
def tailLuca (s : List Char) : Bool :=
  let s2 := skipSpaces s
  (match matchLit ['l', 'u', 'c', 'a'] s2 with
   | some r => wbEnd r
   | none => false) ||
  (match matchLit ['l', 'u', 'c', 'a', 's'] s2 with
   | some r => wbEnd r
   | none => false)

/-- Try a literal-prefix alternation followed by a boolean tail matcher. -/
def litThen (lit : List Char) (tail : List Char → Bool) (s : List Char) : Bool :=
  match matchLit lit s with
  | some r => tail r
  | none => false

/-- Word-pattern search with the leading `\b`: the pattern may only start
where the previous character is absent or a non-word character. -/
def searchWordPattern (m : List Char → Bool) : Option Char → List Char → Bool
  | _, [] => false
  | prev, c :: rest =>
    ((match prev with
      | none => true
      | some p => !isWordChar p) && m (c :: rest)) ||
    searchWordPattern m (some c) rest

/-- Greedy `(\d+)` at the head of the input, with its parsed value. -/
def takeDigitsAll (l : List Char) (acc : Nat) (started : Bool) : Option (Nat × List Char) :=
  match l with
  | [] => if started then some (acc, []) else none
  | c :: rest =>
    if c.isDigit then takeDigitsAll rest (acc * 10 + (c.toNat - 48)) true
    else if started then some (acc, c :: rest) else none

/-- Search for `(\d+)\s*(suffix alternation)`; each alternative is a plain
literal with no trailing word boundary, tried in the given order. -/
def searchNumberSuffix (alts : List (List Char)) : List Char → Option Nat
  | [] => none
  | c :: rest =>
    match takeDigitsAll (c :: rest) 0 false with
    | some (n, after) =>
      if alts.any (fun a => (matchLit a (skipSpaces after)).isSome) then some n
      else searchNumberSuffix alts rest
    | none => searchNumberSuffix alts rest

/-- Search for a bare `(\d+)` and parse it. -/
def searchNumber : List Char → Option Nat
  | [] => none
  | c :: rest =>
    match takeDigitsAll (c :: rest) 0 false with
    | some (n, _) => some n
    | none => searchNumber rest

/-- `extractAmount(text)` (src/server.js lines 3169-3202). -/
def extractAmount (text : List Char) : Option Nat :=
  let cleaned := cleanAmount text
  if searchWordPattern
      (fun s => litThen ['u', 'n'] tailMillon s || litThen ['1'] tailMillon s)
      none cleaned then some 1000000
  else if searchWordPattern
      (fun s => litThen ['d', 'o', 's'] tailMillones s || litThen ['2'] tailMillones s)
      none cleaned then some 2000000
  else if searchWordPattern
      (fun s => litThen ['t', 'r', 'e', 's'] tailMillones s || litThen ['3'] tailMillones s)
      none cleaned then some 3000000
  else if searchWordPattern
      (fun s => litThen ['m', 'e', 'd', 'i', 'o'] tailMillon s)
      none cleaned then some 500000
  else if searchWordPattern
      (fun s => litThen ['u', 'n', 'a'] tailLuca s || litThen ['1'] tailLuca s)
      none cleaned then some 1000
  else
    match searchNumberSuffix
        [['l', 'u', 'c', 'a', 's'], ['l', 'u', 'c', 'a'], ['l', 'u', 'k', 'a', 's'],
         ['m', 'i', 'l'], ['k']] cleaned with
    | some n => some (n * 1000)
    | none =>
      match searchNumberSuffix
          [['p', 'a', 'l', 'o'], ['p', 'a', 'l', 'o', 's'],
           ['m', 'i', 'l', 'l', 'o', 'n'], ['m', 'i', 'l', 'l', 'o', 'n', 'e', 's']]
          cleaned with
      | some n => some (n * 1000000)
      | none => searchNumber cleaned

/-!  Branch 3.6 of `processUserMessage` (src/server.js lines 1046-1107):
`pending_fixed_expense_id > 0`, i.e. awaiting a reminder day or an edit of
a fixed expense. -/

/-- JavaScript truthiness of `extractAmount`'s result (`null` and `0` are
falsy). -/
def amountTruthy : Option Nat → Bool
  | none => false
  | some n => n ≠ 0

/-- `^\d{1,2}$` test used for `isJustADay`. -/
def isDigits12 : List Char → Bool
  | [c] => c.isDigit
  | [c, d] => c.isDigit && d.isDigit
  | _ => false

/-- Substring test `String.prototype.includes`. -/
def hasSub (sub : List Char) : List Char → Bool
  | [] => (matchLit sub []).isSome
  | c :: rest => (matchLit sub (c :: rest)).isSome || hasSub sub rest

/-- Outcome of the positive-pending branch. -/
inductive PendingFixedOutcome
  | cancel
  | removeReminder
  | update (typicalAmount : Option Nat) (reminderDay : Option Nat)
  | reprompt
  deriving DecidableEq

/-- Branch 3.6 of `processUserMessage` as a pure decision function: cancel
words clear the pending state; "quitar recordatorio"-style messages clear
the reminder day; otherwise a day and/or amount is extracted, where a
message that is just one or two digits forming a valid day is treated as a
day only and never as an amount; with neither, the user is re-prompted. -/
def handlePendingFixedPositive (message : List Char) : PendingFixedOutcome :=
  let msgLower := cleanMsg message
  if msgLower = ['c', 'a', 'n', 'c', 'e', 'l', 'a', 'r'] ∨
     msgLower = ['s', 'a', 'l', 't', 'a', 'r'] ∨
     msgLower = ['s', 'k', 'i', 'p'] ∨
     msgLower = ['o', 'm', 'i', 't', 'i', 'r'] then .cancel
  else if hasSub "sin recordatorio".data msgLower ||
      hasSub "quitar recordatorio".data msgLower ||
      hasSub "sin dia".data msgLower ||
      hasSub "sin día".data msgLower ||
      hasSub "quitar dia".data msgLower ||
      hasSub "quitar día".data msgLower then .removeReminder
  else
    let day := extractReminderDay message
    let isJustADay := isDigits12 msgLower && day.isSome
    let amount := if isJustADay then none else extractAmount message
    if amountTruthy amount || day.isSome then
      .update (if amountTruthy amount then amount else none) day
    else .reprompt

theorem matchLit_isSome_length (lit s : List Char) (h : (matchLit lit s).isSome) :
    lit.length ≤ s.length := by
  induction lit generalizing s with
  | nil => simp
  | cons c lr ih =>
    cases s with
    | nil => simp [matchLit] at h
    | cons x xs =>
      by_cases hx : x = c
      · have := ih xs (by simpa [matchLit, hx] using h)
        simpa using Nat.succ_le_succ this
      · simp [matchLit, hx] at h

theorem hasSub_length (sub l : List Char) (h : hasSub sub l = true) :
    sub.length ≤ l.length := by
  induction l with
  | nil =>
    simp only [hasSub] at h
    exact matchLit_isSome_length _ _ h
  | cons c rest ih =>
    simp only [hasSub, Bool.or_eq_true] at h
    rcases h with h | h
    · exact matchLit_isSome_length _ _ h
    · exact le_trans (ih h) (by simp)

theorem hasSub_false_of_short (sub l : List Char) (h : l.length < sub.length) :
    hasSub sub l = false := by
  cases hq : hasSub sub l with
  | false => rfl
  | true => exact absurd (hasSub_length _ _ hq) (by omega)

/-- C10: while a positive fixed-expense id is pending, a message that is
just one or two digits forming a valid reminder day updates only the
reminder day; the typical amount is never updated from such a message. -/
theorem c10_bare_day_sets_reminder_only (msg : List Char) (d : Nat)
    (h1 : isDigits12 (cleanMsg msg) = true)
    (h2 : extractReminderDay msg = some d) :
    handlePendingFixedPositive msg = .update none (some d) := by
  have hlen : (cleanMsg msg).length ≤ 2 := by
    cases hcl : cleanMsg msg with
    | nil => simp
    | cons a t =>
      cases t with
      | nil => simp
      | cons b t2 =>
        cases t2 with
        | nil => simp
        | cons e t3 =>
          rw [hcl] at h1
          exact absurd h1 (by simp [isDigits12])
  have hc1 : cleanMsg msg ≠ ['c', 'a', 'n', 'c', 'e', 'l', 'a', 'r'] := by
    intro h; rw [h] at hlen; simp at hlen
  have hc2 : cleanMsg msg ≠ ['s', 'a', 'l', 't', 'a', 'r'] := by
    intro h; rw [h] at hlen; simp at hlen
  have hc3 : cleanMsg msg ≠ ['s', 'k', 'i', 'p'] := by
    intro h; rw [h] at hlen; simp at hlen
  have hc4 : cleanMsg msg ≠ ['o', 'm', 'i', 't', 'i', 'r'] := by
    intro h; rw [h] at hlen; simp at hlen
  have hs1 : hasSub "sin recordatorio".data (cleanMsg msg) = false :=
    hasSub_false_of_short _ _ (Nat.lt_of_le_of_lt hlen (by decide))
  have hs2 : hasSub "quitar recordatorio".data (cleanMsg msg) = false :=
    hasSub_false_of_short _ _ (Nat.lt_of_le_of_lt hlen (by decide))
  have hs3 : hasSub "sin dia".data (cleanMsg msg) = false :=
    hasSub_false_of_short _ _ (Nat.lt_of_le_of_lt hlen (by decide))
  have hs4 : hasSub "sin día".data (cleanMsg msg) = false :=
    hasSub_false_of_short _ _ (Nat.lt_of_le_of_lt hlen (by decide))
  have hs5 : hasSub "quitar dia".data (cleanMsg msg) = false :=
    hasSub_false_of_short _ _ (Nat.lt_of_le_of_lt hlen (by decide))
  have hs6 : hasSub "quitar día".data (cleanMsg msg) = false :=
    hasSub_false_of_short _ _ (Nat.lt_of_le_of_lt hlen (by decide))
  simp [handlePendingFixedPositive, hc1, hc2, hc3, hc4, hs1, hs2, hs3, hs4, hs5, hs6,
    h1, h2, amountTruthy]

/-- Witness for C10: the message "15" is a bare two-digit day and the
handler updates only the reminder day. -/
theorem c10_bare_day_sets_reminder_only_witness :
    isDigits12 (cleanMsg ['1', '5']) = true ∧
    extractReminderDay ['1', '5'] = some 15 ∧
    handlePendingFixedPositive ['1', '5'] = .update none (some 15) :=
  ⟨by decide, by decide,
    c10_bare_day_sets_reminder_only ['1', '5'] 15 (by decide) (by decide)⟩

/-!  Monthly "register-all" bulk reminder action
(`handleFixedExpenseReminderResponse`, src/server.js lines 5169-5233).
The per-user view of the `transactions` table is a list of rows; `date` is
abstracted to the calendar month it falls in, which is all the source's
`date >= date_trunc('month', CURRENT_DATE)` filter observes. -/

/-- A row of the `transactions` table as seen by the reminder flow. -/
structure TransRow where
  amount : ℚ
  categoryId : Option ℤ
  description : String
  month : ℤ
  isIncome : Bool
  expenseType : String
  fixedExpenseId : Option ℤ
  deriving DecidableEq

/-- A row of the `fixed_expenses` table. -/
structure FixedExpenseRow where
  id : ℤ
  description : String
  typicalAmount : ℚ
  categoryId : Option ℤ
  reminderDay : Option ℤ
  isActive : Bool
  deriving DecidableEq

/-- The duplicate check of the register-all loop: does a transaction
referencing this fixed expense already exist in the current month
(src/server.js lines 5189-5196)? -/
def existsTxThisMonth (curMonth : ℤ) (feId : ℤ) (txs : List TransRow) : Bool :=
  txs.any (fun t => t.fixedExpenseId = some feId ∧ t.month = curMonth)

/-- One iteration of the register-all loop: skip if a linked transaction
already exists this month, otherwise insert a `fixed`-type transaction
linked to the fixed expense (src/server.js lines 5187-5214). -/
def registerOneFixedExpense (curMonth : ℤ) (fe : FixedExpenseRow) (txs : List TransRow) :
    List TransRow :=
  if existsTxThisMonth curMonth fe.id txs then txs
  else txs ++ [{ amount := fe.typicalAmount, categoryId := fe.categoryId,
                 description := fe.description, month := curMonth, isIncome := false,
                 expenseType := "fixed", fixedExpenseId := some fe.id }]

/-- The register-all action over the user's list of due fixed expenses. -/
def registerAllFixedExpenses (curMonth : ℤ) (fes : List FixedExpenseRow)
    (txs : List TransRow) : List TransRow :=
  fes.foldl (fun acc fe => registerOneFixedExpense curMonth fe acc) txs

/-- Number of transactions of the current month linked to a given fixed
expense. -/
def countLinkedInMonth (curMonth : ℤ) (feId : ℤ) (txs : List TransRow) : Nat :=
  txs.countP (fun t => t.fixedExpenseId = some feId ∧ t.month = curMonth)

theorem existsTxThisMonth_append (curMonth feId : ℤ) (txs l : List TransRow) :
    existsTxThisMonth curMonth feId txs = true →
    existsTxThisMonth curMonth feId (txs ++ l) = true := by
  intro h
  simp only [existsTxThisMonth, List.any_append, Bool.or_eq_true]
  exact Or.inl h

theorem existsTxThisMonth_registerOne (curMonth feId : ℤ) (fe : FixedExpenseRow)
    (txs : List TransRow) (h : existsTxThisMonth curMonth feId txs = true) :
    existsTxThisMonth curMonth feId (registerOneFixedExpense curMonth fe txs) = true := by
  unfold registerOneFixedExpense
  split
  · exact h
  · exact existsTxThisMonth_append _ _ _ _ h

theorem existsTxThisMonth_registerOne_self (curMonth : ℤ) (fe : FixedExpenseRow)
    (txs : List TransRow) :
    existsTxThisMonth curMonth fe.id (registerOneFixedExpense curMonth fe txs) = true := by
  unfold registerOneFixedExpense
  split
  · assumption
  · simp [existsTxThisMonth]

theorem existsTxThisMonth_registerAll (curMonth feId : ℤ) (fes : List FixedExpenseRow)
    (txs : List TransRow) (h : existsTxThisMonth curMonth feId txs = true) :
    existsTxThisMonth curMonth feId (registerAllFixedExpenses curMonth fes txs) = true := by
  induction fes generalizing txs with
  | nil => exact h
  | cons fe rest ih =>
    exact ih _ (existsTxThisMonth_registerOne _ _ _ _ h)

theorem existsTxThisMonth_registerAll_mem (curMonth : ℤ) (fe : FixedExpenseRow)
    (fes : List FixedExpenseRow) (hmem : fe ∈ fes) (txs : List TransRow) :
    existsTxThisMonth curMonth fe.id (registerAllFixedExpenses curMonth fes txs) = true := by
  induction hmem generalizing txs with
  | head rest =>
    show existsTxThisMonth curMonth fe.id
      (registerAllFixedExpenses curMonth rest (registerOneFixedExpense curMonth fe txs)) = true
    exact existsTxThisMonth_registerAll _ _ _ _
      (existsTxThisMonth_registerOne_self _ _ _)
  | tail b hm ih => exact ih _

theorem registerAll_noop_of_all_exist (curMonth : ℤ) (fes : List FixedExpenseRow)
    (txs : List TransRow)
    (h : ∀ fe ∈ fes, existsTxThisMonth curMonth fe.id txs = true) :
    registerAllFixedExpenses curMonth fes txs = txs := by
  induction fes with
  | nil => rfl
  | cons fe rest ih =>
    have hfe := h fe (by simp)
    have hone : registerOneFixedExpense curMonth fe txs = txs := by
      unfold registerOneFixedExpense
      simp [hfe]
    show registerAllFixedExpenses curMonth rest (registerOneFixedExpense curMonth fe txs) = txs
    rw [hone]
    exact ih (fun g hg => h g (by simp [hg]))

theorem existsTx_eq_true_iff (curMonth feId : ℤ) (txs : List TransRow) :
    existsTxThisMonth curMonth feId txs = true ↔
      0 < countLinkedInMonth curMonth feId txs := by
  simp [existsTxThisMonth, countLinkedInMonth, List.any_eq_true, List.countP_pos_iff]

theorem countP_registerOne_le (curMonth feId : ℤ) (fe : FixedExpenseRow)
    (txs : List TransRow) :
    countLinkedInMonth curMonth feId (registerOneFixedExpense curMonth fe txs) ≤
      max 1 (countLinkedInMonth curMonth feId txs) := by
  unfold registerOneFixedExpense
  split
  · exact le_max_of_le_right le_rfl
  · rename_i hnot
    by_cases hid : fe.id = feId
    · subst hid
      have hzero : countLinkedInMonth curMonth fe.id txs = 0 := by
        by_contra hz
        exact hnot ((existsTx_eq_true_iff _ _ _).2 (Nat.pos_of_ne_zero hz))
      unfold countLinkedInMonth at hzero ⊢
      rw [List.countP_append, hzero, Nat.zero_add]
      simp [List.countP_cons]
    · unfold countLinkedInMonth
      rw [List.countP_append]
      have hz : countLinkedInMonth curMonth feId
          [{ amount := fe.typicalAmount, categoryId := fe.categoryId,
             description := fe.description, month := curMonth, isIncome := false,
             expenseType := "fixed", fixedExpenseId := some fe.id }] = 0 := by
        simp [countLinkedInMonth, List.countP_cons, hid]
      unfold countLinkedInMonth at hz
      rw [hz]
      exact le_max_of_le_right (Nat.le_refl _)

theorem countLinked_registerAll_le (curMonth feId : ℤ) (fes : List FixedExpenseRow)
    (txs : List TransRow) :
    countLinkedInMonth curMonth feId (registerAllFixedExpenses curMonth fes txs) ≤
      max 1 (countLinkedInMonth curMonth feId txs) := by
  induction fes generalizing txs with
  | nil => exact le_max_of_le_right le_rfl
  | cons fe rest ih =>
    calc countLinkedInMonth curMonth feId
          (registerAllFixedExpenses curMonth rest (registerOneFixedExpense curMonth fe txs)) ≤
        max 1 (countLinkedInMonth curMonth feId (registerOneFixedExpense curMonth fe txs)) :=
          ih _
      _ ≤ max 1 (max 1 (countLinkedInMonth curMonth feId txs)) := by
          exact max_le_max le_rfl (countP_registerOne_le _ _ _ _)
      _ = max 1 (countLinkedInMonth curMonth feId txs) := by rw [← max_assoc, max_self]

/-- C1: the register-all bulk reminder action is idempotent within a
calendar month: running it a second time changes nothing (every due fixed
expense already has a linked transaction this month, so each is skipped),
and a single run leaves at most `max 1 (previous count)` transactions of
the month linked to any given fixed expense — so at most one linked
transaction is ever created. -/
theorem c1_register_all_idempotent (curMonth feId : ℤ) (fes : List FixedExpenseRow)
    (txs : List TransRow) :
    registerAllFixedExpenses curMonth fes (registerAllFixedExpenses curMonth fes txs) =
      registerAllFixedExpenses curMonth fes txs ∧
    countLinkedInMonth curMonth feId (registerAllFixedExpenses curMonth fes txs) ≤
      max 1 (countLinkedInMonth curMonth feId txs) := by
  constructor
  · exact registerAll_noop_of_all_exist _ _ _
      (fun fe hfe => existsTxThisMonth_registerAll_mem _ _ _ hfe _)
  · exact countLinked_registerAll_le _ _ _ _

/-!  Financial-health composite alert (`checkFinancialHealth`,
src/server.js lines 3359-3481).  The per-category expense query returns
rows ordered by total descending; `spentRows` is that result set.
`income` is the output of `getEffectiveMonthlyIncome`.  `FinancialAlert`
rows are `(alert_type, alert_date)` pairs of the requesting user. -/

/-- A row of the per-category month-to-date expense query. -/
structure CatSpend where
  category : String
  emoji : Option String
  total : ℚ
  deriving DecidableEq

instance : Inhabited CatSpend := ⟨⟨"", none, 0⟩⟩

/-- A `financial_alerts` row of the user. -/
structure AlertRow where
  alertType : String
  day : ℤ
  deriving DecidableEq

/-- Inputs of the financial-health check. -/
structure HealthInput where
  income : ℚ
  savingsGoal : ℚ
  spentRows : List CatSpend
  dayOfMonth : ℕ
  daysInMonth : ℕ
  deriving DecidableEq

/-- The three alert kinds of the fixed-priority chain. -/
inductive HealthAlertType
  | highSpending
  | savingsRisk
  | categoryHigh
  deriving DecidableEq

/-- Observable outcome of one invocation of the check. -/
inductive HealthOutcome
  | dedupSkip
  | noSpending
  | invalidBudget
  | fired (t : HealthAlertType)
  | noAlert
  deriving DecidableEq

/-- The dedup predicate of the `SELECT id FROM financial_alerts WHERE ...
alert_type = 'financial_health' AND alert_date = CURRENT_DATE` query. -/
def isHealthAlertToday (today : ℤ) (a : AlertRow) : Bool :=
  decide (a.alertType = "financial_health" ∧ a.day = today)

/-- Number of `financial_health` alert rows recorded for today. -/
def countHealthToday (today : ℤ) (alerts : List AlertRow) : Nat :=
  alerts.countP (isHealthAlertToday today)

/-- `INSERT ... ON CONFLICT (user_id, alert_type, alert_date) DO NOTHING`
(src/server.js lines 3473-3477). -/
def insertAlertOnConflict (today : ℤ) (alerts : List AlertRow) : List AlertRow :=
  if alerts.any (isHealthAlertToday today) then alerts
  else alerts ++ [⟨"financial_health", today⟩]

/-- The alert-condition chain of `checkFinancialHealth` (src/server.js
lines 3417-3455): condition 1 (spending between 70% and 100% of the
spending budget) is evaluated first; conditions 2 and 3 are guarded by
`!shouldAlert`, so the first true condition wins.  The unguarded division
`topCategory.total / income` is special-cased at `income = 0`, where
JavaScript yields `Infinity` (comparing `> 30` as true) for a positive
numerator and `NaN` (comparing as false) otherwise. -/
def healthDecision (inp : HealthInput) : Option HealthAlertType :=
  let totalSpent := (inp.spentRows.map CatSpend.total).sum
  let spendingBudget := inp.income - inp.savingsGoal
  let percentageUsed := totalSpent / spendingBudget * 100
  let projectedTotal : ℤ := jsRound (totalSpent / (inp.dayOfMonth : ℚ) * (inp.daysInMonth : ℚ))
  let projectedSavings : ℤ := jsRound (inp.income - (projectedTotal : ℚ))
  let topCategory := inp.spentRows.headI
  let topCatOver30 : Bool :=
    if inp.income = 0 then decide (0 < topCategory.total)
    else decide (30 < topCategory.total / inp.income * 100)
  if 70 < percentageUsed ∧ percentageUsed < 100 then some .highSpending
  else if (projectedSavings : ℚ) < inp.savingsGoal * (8 / 10) then some .savingsRisk
  else if topCatOver30 = true then some .categoryHigh
  else none

/-- `checkFinancialHealth` (src/server.js lines 3359-3481): skip if an
alert was already sent today; skip if there are no expenses this month;
skip if the spending budget is not positive; otherwise evaluate the
priority chain and, when an alert fires, record the dedup row and send. -/
def checkFinancialHealth (inp : HealthInput) (today : ℤ) (alerts : List AlertRow) :
    HealthOutcome × List AlertRow :=
  if alerts.any (isHealthAlertToday today) then (.dedupSkip, alerts)
  else if inp.spentRows.length = 0 then (.noSpending, alerts)
  else if inp.income - inp.savingsGoal ≤ 0 then (.invalidBudget, alerts)
  else
    match healthDecision inp with
    | some t => (.fired t, insertAlertOnConflict today alerts)
    | none => (.noAlert, alerts)

theorem countHealthToday_pos_any (today : ℤ) (alerts : List AlertRow)
    (h : 0 < countHealthToday today alerts) :
    alerts.any (isHealthAlertToday today) = true := by
  rw [List.any_eq_true]
  exact List.countP_pos_iff.mp h

theorem countHealthToday_zero_of_not_any (today : ℤ) (alerts : List AlertRow)
    (h : alerts.any (isHealthAlertToday today) = false) :
    countHealthToday today alerts = 0 := by
  unfold countHealthToday
  rw [List.countP_eq_zero]
  intro a ha hpa
  rw [List.any_eq_false] at h
  exact h a ha hpa

/-- C2: the financial-health check fires at most one `financial_health`
dedup row per calendar day: it returns without firing when a row for today
already exists; when it fires, no row existed and afterwards exactly one
does; and in every case the number of rows for today never exceeds
`max 1` of the previous count, no matter how often the check runs. -/
theorem c2_financial_alert_daily_dedup (inp : HealthInput) (today : ℤ)
    (alerts : List AlertRow) :
    (0 < countHealthToday today alerts →
      checkFinancialHealth inp today alerts = (.dedupSkip, alerts)) ∧
    (∀ t, (checkFinancialHealth inp today alerts).1 = .fired t →
      countHealthToday today alerts = 0 ∧
      countHealthToday today (checkFinancialHealth inp today alerts).2 = 1) ∧
    countHealthToday today (checkFinancialHealth inp today alerts).2 ≤
      max 1 (countHealthToday today alerts) := by
  by_cases hany : alerts.any (isHealthAlertToday today) = true
  · refine ⟨fun _ => ?_, fun t ht => ?_, ?_⟩
    · unfold checkFinancialHealth
      rw [if_pos hany]
    · exfalso
      unfold checkFinancialHealth at ht
      rw [if_pos hany] at ht
      simp at ht
    · unfold checkFinancialHealth
      rw [if_pos hany]
      exact le_max_of_le_right le_rfl
  · rw [Bool.not_eq_true] at hany
    have hzero := countHealthToday_zero_of_not_any today alerts hany
    have happend : countHealthToday today (alerts ++ [⟨"financial_health", today⟩]) = 1 := by
      unfold countHealthToday at hzero ⊢
      rw [List.countP_append, hzero, Nat.zero_add]
      simp [List.countP_cons, isHealthAlertToday]
    refine ⟨fun hpos => ?_, fun t ht => ?_, ?_⟩
    · rw [hzero] at hpos
      exact absurd hpos (by omega)
    · refine ⟨hzero, ?_⟩
      unfold checkFinancialHealth at ht ⊢
      rw [if_neg (by rw [hany]; exact Bool.false_ne_true)] at ht ⊢
      by_cases h2 : inp.spentRows.length = 0
      · rw [if_pos h2] at ht
        simp at ht
      · rw [if_neg h2] at ht ⊢
        by_cases h3 : inp.income - inp.savingsGoal ≤ 0
        · rw [if_pos h3] at ht
          simp at ht
        · rw [if_neg h3] at ht ⊢
          cases hd : healthDecision inp with
          | none =>
            rw [hd] at ht
            simp at ht
          | some u =>
            show countHealthToday today (insertAlertOnConflict today alerts) = 1
            unfold insertAlertOnConflict
            rw [if_neg (by rw [hany]; exact Bool.false_ne_true)]
            exact happend
    · unfold checkFinancialHealth
      rw [if_neg (by rw [hany]; exact Bool.false_ne_true)]
      by_cases h2 : inp.spentRows.length = 0
      · rw [if_pos h2]
        exact le_max_of_le_right le_rfl
      · rw [if_neg h2]
        by_cases h3 : inp.income - inp.savingsGoal ≤ 0
        · rw [if_pos h3]
          exact le_max_of_le_right le_rfl
        · rw [if_neg h3]
          cases hd : healthDecision inp with
          | none => exact le_max_of_le_right le_rfl
          | some u =>
            show countHealthToday today (insertAlertOnConflict today alerts) ≤ _
            unfold insertAlertOnConflict
            rw [if_neg (by rw [hany]; exact Bool.false_ne_true)]
            rw [happend]
            exact le_max_left _ _

/-- Witness for C2: with a dedup row already present for today, the check
returns without firing and leaves the table unchanged. -/
theorem c2_financial_alert_daily_dedup_witness :
    checkFinancialHealth ⟨800000, 100000, [⟨"comida", none, 560000⟩], 15, 30⟩ 0
        [⟨"financial_health", 0⟩] =
      (.dedupSkip, [⟨"financial_health", 0⟩]) :=
  (c2_financial_alert_daily_dedup ⟨800000, 100000, [⟨"comida", none, 560000⟩], 15, 30⟩ 0
    [⟨"financial_health", 0⟩]).1 (by decide)

/-- C3 counterexample: with income 800000, savings goal 100000 (spending
budget 700000) and expenses of 560000 in a single category (80% of the
budget), condition 1 of the chain — the generic >70%-of-budget alert — is
true and, being evaluated first, wins: the fired alert is `highSpending`,
not the category alert the claim requires, so the category alert does not
fire. -/
theorem c3_generic_alert_wins_counterexample :
    checkFinancialHealth ⟨800000, 100000, [⟨"comida", none, 560000⟩], 15, 30⟩ 0 [] =
      (.fired .highSpending, [⟨"financial_health", 0⟩]) ∧
    HealthOutcome.fired .highSpending ≠ HealthOutcome.fired .categoryHigh := by
  constructor
  · have hd : healthDecision ⟨800000, 100000, [⟨"comida", none, 560000⟩], 15, 30⟩ =
        some .highSpending := by
      simp only [healthDecision]
      norm_num
    norm_num [checkFinancialHealth, hd, insertAlertOnConflict]
  · decide

/-- C3 amended: in the 800000-income / 100000-goal / 560000-single-category
scenario, the check fires exactly one alert, namely the generic
>70%-of-spending-budget alert (condition 1, evaluated first, wins), the
category alert does not fire in that same check, and exactly one dedup row
is recorded — consistent with the documented fixed priority order; this
holds on every day of every month. -/
theorem c3_amended_first_condition_wins (day days : ℕ) (today : ℤ) :
    checkFinancialHealth ⟨800000, 100000, [⟨"comida", none, 560000⟩], day, days⟩ today [] =
      (.fired .highSpending, [⟨"financial_health", today⟩]) := by
  have hd : healthDecision ⟨800000, 100000, [⟨"comida", none, 560000⟩], day, days⟩ =
      some .highSpending := by
    simp only [healthDecision]
    norm_num
  norm_num [checkFinancialHealth, hd, insertAlertOnConflict]

/-!  Positional edit/delete of transactions (`handleEditExpense`,
src/server.js lines 2872-2947, and `handleDeleteExpense`, lines 2950-3017).
The `transactions` table is a list of rows kept in the display order of the
fallback query (`created_at DESC`); `date` is abstracted to its calendar
month. -/

/-- A row of the `transactions` table as seen by the ledger handlers. -/
structure LedgerTx where
  id : ℤ
  userId : ℤ
  amount : ℚ
  categoryId : Option ℤ
  description : String
  month : ℤ
  isIncome : Bool
  expenseType : String
  fixedExpenseId : Option ℤ
  deriving DecidableEq

/-- The fallback query `SELECT t.id FROM transactions t WHERE t.user_id =
$1 AND t.date >= date_trunc('month', CURRENT_DATE) ORDER BY t.created_at
DESC LIMIT 20` (the state list is kept in that display order). -/
def monthTxIds (u curMonth : ℤ) (txs : List LedgerTx) : List ℤ :=
  ((txs.filter (fun t => decide (t.userId = u ∧ t.month = curMonth))).map LedgerTx.id).take 20

/-- Positional resolution shared by edit and delete: use
`lastShownIds[index - 1]` when the saved list exists and is long enough,
otherwise fall back to the recomputed month list, reporting not-found when
the index also exceeds that list. -/
def resolvePositional (lastShown : Option (List ℤ)) (fallback : List ℤ) (i : ℤ) :
    Option ℤ :=
  match lastShown with
  | some l =>
    if i ≤ (l.length : ℤ) then some (l.getD (i - 1).toNat 0)
    else if i ≤ (fallback.length : ℤ) then some (fallback.getD (i - 1).toNat 0)
    else none
  | none =>
    if i ≤ (fallback.length : ℤ) then some (fallback.getD (i - 1).toNat 0)
    else none

/-- Observable outcome of `handleDeleteExpense`. -/
inductive DeleteOutcome
  | badIndex
  | notFoundIndex
  | txMissing
  | deleted (txId : ℤ)
  deriving DecidableEq

/-- `handleDeleteExpense(user, { index })`: validate the index, resolve it
positionally, look the row up scoped to the user, and delete it; every
failure path replies without touching the table. -/
def handleDeleteExpense (u curMonth : ℤ) (index : Option ℤ)
    (lastShown : Option (List ℤ)) (txs : List LedgerTx) :
    DeleteOutcome × List LedgerTx :=
  match index with
  | none => (.badIndex, txs)
  | some i =>
    if i < 1 then (.badIndex, txs)
    else
      match resolvePositional lastShown (monthTxIds u curMonth txs) i with
      | none => (.notFoundIndex, txs)
      | some txId =>
        match txs.find? (fun t => decide (t.id = txId ∧ t.userId = u)) with
        | none => (.txMissing, txs)
        | some _ =>
          (.deleted txId, txs.filter (fun t => !decide (t.id = txId ∧ t.userId = u)))

/-- Observable outcome of `handleEditExpense`. -/
inductive EditOutcome
  | badIndex
  | notFoundIndex
  | txMissing
  | editing (txId : ℤ)
  deriving DecidableEq

/-- `handleEditExpense(user, { index })`: same resolution as delete, but on
success it only stores `-2000 - tx.id` in `pending_fixed_expense_id` and
sends the edit menu; it never updates a transaction row. -/
def handleEditExpense (u curMonth : ℤ) (index : Option ℤ)
    (lastShown : Option (List ℤ)) (txs : List LedgerTx) (pending : Option ℤ) :
    EditOutcome × Option ℤ × List LedgerTx :=
  match index with
  | none => (.badIndex, pending, txs)
  | some i =>
    if i < 1 then (.badIndex, pending, txs)
    else
      match resolvePositional lastShown (monthTxIds u curMonth txs) i with
      | none => (.notFoundIndex, pending, txs)
      | some txId =>
        match txs.find? (fun t => decide (t.id = txId ∧ t.userId = u)) with
        | none => (.txMissing, pending, txs)
        | some tx => (.editing tx.id, some (-2000 - tx.id), txs)

theorem getD_mem_of_lt (l : List ℤ) (n : ℕ) (h : n < l.length) : l.getD n 0 ∈ l := by
  induction l generalizing n with
  | nil => simp at h
  | cons a t ih =>
    cases n with
    | zero => simp
    | succ m =>
      rw [List.getD_cons_succ]
      exact List.mem_cons_of_mem _ (ih m (by simpa using h))

theorem resolvePositional_mem (lastShown : Option (List ℤ)) (fallback : List ℤ)
    (i txId : ℤ) (hi : 1 ≤ i)
    (h : resolvePositional lastShown fallback i = some txId) :
    txId ∈ lastShown.getD [] ∨ txId ∈ fallback := by
  cases lastShown with
  | none =>
    simp only [resolvePositional] at h
    by_cases hf : i ≤ (fallback.length : ℤ)
    · rw [if_pos hf] at h
      right
      have := getD_mem_of_lt fallback (i - 1).toNat (by omega)
      rwa [Option.some_inj.mp h] at this
    · rw [if_neg hf] at h
      cases h
  | some l =>
    simp only [resolvePositional] at h
    by_cases hl : i ≤ (l.length : ℤ)
    · rw [if_pos hl] at h
      left
      have := getD_mem_of_lt l (i - 1).toNat (by omega)
      rw [Option.some_inj.mp h] at this
      simpa using this
    · rw [if_neg hl] at h
      by_cases hf : i ≤ (fallback.length : ℤ)
      · rw [if_pos hf] at h
        right
        have := getD_mem_of_lt fallback (i - 1).toNat (by omega)
        rwa [Option.some_inj.mp h] at this
      · rw [if_neg hf] at h
        cases h

theorem resolvePositional_none (lastShown : Option (List ℤ)) (fallback : List ℤ)
    (i : ℤ) (h1 : ((lastShown.getD []).length : ℤ) < i)
    (h2 : ((fallback.length : ℤ)) < i) :
    resolvePositional lastShown fallback i = none := by
  cases lastShown with
  | none =>
    simp only [resolvePositional]
    rw [if_neg (by omega)]
  | some l =>
    simp only [resolvePositional]
    simp only [Option.getD_some] at h1
    rw [if_neg (by omega), if_neg (by omega)]

/-- C4: positional edit/delete resolves an in-range index against the
saved `last_shown_tx_ids` list and only to an id of that list; an index
beyond both the saved list and the recomputed month list yields a
not-found outcome with no mutation; any path that does not delete leaves
the table unchanged; a deleted row always belongs to the caller and its id
was in one of the two consulted lists; and the edit handler never mutates
a transaction, only storing `-2000 - id` as the pending action on
success. -/
theorem c4_positional_resolution_safe (u curMonth : ℤ) (index : Option ℤ)
    (lastShown : Option (List ℤ)) (txs : List LedgerTx) (pending : Option ℤ) :
    (∀ i l, index = some i → lastShown = some l → 1 ≤ i → i ≤ (l.length : ℤ) →
      resolvePositional lastShown (monthTxIds u curMonth txs) i =
        some (l.getD (i - 1).toNat 0) ∧ l.getD (i - 1).toNat 0 ∈ l) ∧
    (∀ i, index = some i → 1 ≤ i →
      ((lastShown.getD []).length : ℤ) < i →
      ((monthTxIds u curMonth txs).length : ℤ) < i →
      handleDeleteExpense u curMonth index lastShown txs = (.notFoundIndex, txs)) ∧
    ((∀ tid, (handleDeleteExpense u curMonth index lastShown txs).1 ≠ .deleted tid) →
      (handleDeleteExpense u curMonth index lastShown txs).2 = txs) ∧
    (∀ t ∈ txs, t ∉ (handleDeleteExpense u curMonth index lastShown txs).2 →
      t.userId = u ∧ (t.id ∈ lastShown.getD [] ∨ t.id ∈ monthTxIds u curMonth txs)) ∧
    (handleEditExpense u curMonth index lastShown txs pending).2.2 = txs ∧
    (∀ tid, (handleEditExpense u curMonth index lastShown txs pending).1 = .editing tid →
      (handleEditExpense u curMonth index lastShown txs pending).2.1 =
        some (-2000 - tid) ∧
      (tid ∈ lastShown.getD [] ∨ tid ∈ monthTxIds u curMonth txs)) := by
  refine ⟨?_, ?_, ?_, ?_, ?_, ?_⟩
  · intro i l hI hL hi hil
    subst hL
    simp only [resolvePositional]
    rw [if_pos hil]
    exact ⟨rfl, getD_mem_of_lt l (i - 1).toNat (by omega)⟩
  · intro i hI hi h1 h2
    subst hI
    simp only [handleDeleteExpense]
    rw [if_neg (by omega), resolvePositional_none _ _ _ h1 h2]
  · intro hno
    cases index with
    | none => rfl
    | some i =>
      simp only [handleDeleteExpense] at hno ⊢
      by_cases hlt : i < 1
      · rw [if_pos hlt]
      · rw [if_neg hlt] at hno ⊢
        cases hres : resolvePositional lastShown (monthTxIds u curMonth txs) i with
        | none => rfl
        | some txId =>
          rw [hres] at hno
          cases hfind : txs.find? (fun t => decide (t.id = txId ∧ t.userId = u)) with
          | none => simp only [hfind]
          | some tx =>
            exfalso
            apply hno txId
            simp only [hfind]
  · intro t ht hnot
    cases index with
    | none => exact absurd ht hnot
    | some i =>
      simp only [handleDeleteExpense] at hnot
      by_cases hlt : i < 1
      · rw [if_pos hlt] at hnot
        exact absurd ht hnot
      · rw [if_neg hlt] at hnot
        cases hres : resolvePositional lastShown (monthTxIds u curMonth txs) i with
        | none =>
          rw [hres] at hnot
          exact absurd ht hnot
        | some txId =>
          rw [hres] at hnot
          cases hfind : txs.find? (fun t => decide (t.id = txId ∧ t.userId = u)) with
          | none =>
            simp only [hfind] at hnot
            exact absurd ht hnot
          | some tx =>
            simp only [hfind] at hnot
            have hpred : ¬(!decide (t.id = txId ∧ t.userId = u)) = true := by
              intro hb
              exact hnot (List.mem_filter.mpr ⟨ht, hb⟩)
            have hdec : t.id = txId ∧ t.userId = u := by
              rcases Bool.eq_false_or_eq_true (decide (t.id = txId ∧ t.userId = u)) with hd | hd
              · exact of_decide_eq_true hd
              · exact absurd (by rw [hd]; rfl) hpred
            refine ⟨hdec.2, ?_⟩
            rw [hdec.1]
            exact resolvePositional_mem _ _ _ _ (by omega) hres
  · cases index with
    | none => rfl
    | some i =>
      simp only [handleEditExpense]
      by_cases hlt : i < 1
      · rw [if_pos hlt]
      · rw [if_neg hlt]
        cases hres : resolvePositional lastShown (monthTxIds u curMonth txs) i with
        | none => rfl
        | some txId =>
          cases hfind : txs.find? (fun t => decide (t.id = txId ∧ t.userId = u)) with
          | none => simp only [hfind]
          | some tx => simp only [hfind]
  · intro tid hedit
    cases index with
    | none => simp [handleEditExpense] at hedit
    | some i =>
      simp only [handleEditExpense] at hedit ⊢
      by_cases hlt : i < 1
      · rw [if_pos hlt] at hedit
        simp at hedit
      · rw [if_neg hlt] at hedit ⊢
        cases hres : resolvePositional lastShown (monthTxIds u curMonth txs) i with
        | none =>
          rw [hres] at hedit
          simp at hedit
        | some txId =>
          rw [hres] at hedit
          cases hfind : txs.find? (fun t => decide (t.id = txId ∧ t.userId = u)) with
          | none =>
            simp only [hfind] at hedit
            simp at hedit
          | some tx =>
            simp only [hfind] at hedit
            have htid : tx.id = tid := by
              simpa using hedit
            have hp : decide (tx.id = txId ∧ tx.userId = u) = true := by
              have hq := List.find?_some hfind
              simpa using hq
            have hp2 := of_decide_eq_true hp
            refine ⟨?_, ?_⟩
            · simp only [hfind]
              rw [htid]
            · rw [← htid, hp2.1]
              exact resolvePositional_mem _ _ _ _ (by omega) hres

/-- Witness for C4: with one stored transaction, an empty saved list and
index 3 (beyond both lists), the delete reports not-found and leaves the
table unchanged. -/
theorem c4_positional_resolution_safe_witness :
    handleDeleteExpense 1 0 (some 3) (some [])
        [⟨10, 1, 100, none, "x", 0, false, "variable", none⟩] =
      (.notFoundIndex, [⟨10, 1, 100, none, "x", 0, false, "variable", none⟩]) :=
  (c4_positional_resolution_safe 1 0 (some 3) (some [])
      [⟨10, 1, 100, none, "x", 0, false, "variable", none⟩] none).2.1 3 rfl
    (by norm_num) (by simp) (by simp [monthTxIds])

/-!  Budget-status report (`handleBudgetStatus`, src/server.js lines
4054-4137) and post-write per-category budget alerts (`checkBudgetAlerts`,
lines 4291-4334).  Per-budget spending comes from the single aggregated
spending query; the aggregate percentage on line 4134 divides by the sum
of all limits with no guard, so a zero total budget yields a non-finite
JavaScript number (`jsDiv` returns `none` there). -/

/-- A row of the budgets query joined with its category. -/
structure BudgetRow where
  categoryId : ℤ
  name : String
  emoji : Option String
  monthlyLimit : ℚ
  deriving DecidableEq

/-- Per-budget percentage of the report: `(limit > 0) ? (spent / limit) *
100 : 0` (src/server.js line 4108). -/
def budgetPercentage (limit spent : ℚ) : ℚ :=
  if 0 < limit then spent / limit * 100 else 0

/-- Month-to-date spending per category, from the aggregated query
(src/server.js lines 4083-4097; missing categories default to 0). -/
def monthCategorySpent (u curMonth : ℤ) (c : ℤ) (txs : List LedgerTx) : ℚ :=
  ((txs.filter (fun t =>
    decide (t.userId = u ∧ t.categoryId = some c ∧ t.month = curMonth ∧ t.isIncome = false))).map
      LedgerTx.amount).sum

/-- Totals of the report loop (src/server.js lines 4100-4105). -/
def budgetStatusTotals (budgets : List BudgetRow) (spentOf : ℤ → ℚ) : ℚ × ℚ :=
  ((budgets.map BudgetRow.monthlyLimit).sum, (budgets.map (fun b => spentOf b.categoryId)).sum)

/-- The aggregate `(totalSpent / totalBudget) * 100` of the report footer
(src/server.js line 4134), with JavaScript division-by-zero semantics. -/
def budgetStatusAggregatePct (budgets : List BudgetRow) (spentOf : ℤ → ℚ) : Option ℚ :=
  (jsDiv (budgetStatusTotals budgets spentOf).2 (budgetStatusTotals budgets spentOf).1).map
    (fun q => q * 100)

/-- The per-budget lines of the report: budget, spending, and guarded
percentage. -/
def budgetStatusRows (budgets : List BudgetRow) (spentOf : ℤ → ℚ) :
    List (BudgetRow × ℚ × ℚ) :=
  budgets.map (fun b =>
    (b, spentOf b.categoryId, budgetPercentage b.monthlyLimit (spentOf b.categoryId)))

/-- Observable outcome of `checkBudgetAlerts`. -/
inductive BudgetAlertOutcome
  | noBudget
  | invalidLimit
  | alert100
  | alert80
  | noAlert
  deriving DecidableEq

/-- `checkBudgetAlerts(user, categoryId)` (src/server.js lines 4291-4334):
no budget row → return; `!budget || budget <= 0` → return before any
percentage is computed; otherwise alert at ≥100% or ≥80%. -/
def checkBudgetAlerts (budget : Option ℚ) (spent : ℚ) : BudgetAlertOutcome :=
  match budget with
  | none => .noBudget
  | some b =>
    if b ≤ 0 then .invalidLimit
    else
      let percentage := spent / b * 100
      if 100 ≤ percentage then .alert100
      else if 80 ≤ percentage then .alert80
      else .noAlert

/-- C5 counterexample: a single budget whose monthly limit is 0 (a limit
≤ 0, exactly the case the claim covers) makes the report's aggregate
total-spent-over-total-budget percentage a JavaScript division by zero
(`0/0 = NaN`, encoded `none`), not the guarded `0` the claim requires of
every percentage-used value. -/
theorem c5_aggregate_unguarded_counterexample :
    budgetStatusAggregatePct [⟨1, "comida", none, 0⟩] (fun _ => 0) = none ∧
    budgetStatusAggregatePct [⟨1, "comida", none, 0⟩] (fun _ => 0) ≠ some 0 := by
  constructor
  · simp [budgetStatusAggregatePct, budgetStatusTotals, jsDiv]
  · simp [budgetStatusAggregatePct, budgetStatusTotals, jsDiv]

/-- C5 amended: for every budget with monthly limit ≤ 0, the per-budget
percentage of the budget-status report evaluates to 0, and the post-write
alert check returns before computing any percentage; however the report's
aggregate percentage is unguarded: whenever the limits sum to 0 it is a
non-finite JavaScript division (NaN/Infinity), not 0. -/
theorem c5_guarded_percentages_amended (limit spent : ℚ)
    (budgets : List BudgetRow) (spentOf : ℤ → ℚ) (h : limit ≤ 0) :
    budgetPercentage limit spent = 0 ∧
    checkBudgetAlerts (some limit) spent = .invalidLimit ∧
    ((budgetStatusTotals budgets spentOf).1 = 0 →
      budgetStatusAggregatePct budgets spentOf = none) := by
  refine ⟨?_, ?_, ?_⟩
  · unfold budgetPercentage
    rw [if_neg (by linarith)]
  · show (if limit ≤ 0 then BudgetAlertOutcome.invalidLimit
      else
        if 100 ≤ spent / limit * 100 then BudgetAlertOutcome.alert100
        else if 80 ≤ spent / limit * 100 then BudgetAlertOutcome.alert80
        else BudgetAlertOutcome.noAlert) = BudgetAlertOutcome.invalidLimit
    rw [if_pos h]
  · intro h0
    unfold budgetStatusAggregatePct jsDiv
    rw [if_pos h0]
    rfl

/-- Witness for C5 amended: a limit of -5000 with spending 1000 gives a
guarded 0 percentage and an early return of the alert check, and a total
budget of 0 makes the aggregate non-finite. -/
theorem c5_guarded_percentages_amended_witness :
    budgetPercentage (-5000) 1000 = 0 ∧
    checkBudgetAlerts (some (-5000)) 1000 = .invalidLimit ∧
    ((budgetStatusTotals [⟨1, "comida", none, 0⟩] (fun _ => 0)).1 = 0 →
      budgetStatusAggregatePct [⟨1, "comida", none, 0⟩] (fun _ => 0) = none) :=
  c5_guarded_percentages_amended (-5000) 1000 [⟨1, "comida", none, 0⟩] (fun _ => 0)
    (by norm_num)

/-!  Income re-estimation (`checkIncomeUpdatePrompt`, src/server.js lines
2241-2333, and `handleIncomeUpdateResponse`, lines 2336-2389), with the
`INCOME_UPDATE_CONFIG` constants of lines 847-852.  `monthlyTotals` is the
row set of the trailing-3-month income subquery (one entry per month whose
income sums positive, current month excluded); `lastPromptDaysAgo` is the
age in days of `last_income_update_prompt`, `none` when never prompted. -/

/-- `COOLDOWN_DAYS_NORMAL`. -/
def cooldownDaysNormal : ℚ := 30

/-- `COOLDOWN_DAYS_DECLINED`. -/
def cooldownDaysDeclined : ℚ := 60

/-- `MIN_MONTHS_HISTORY`. -/
def minMonthsHistory : ℕ := 2

/-- `DIFF_THRESHOLD_PERCENT`. -/
def diffThresholdPercent : ℚ := 20

/-- `COALESCE(AVG(monthly_total), 0)` over the income months. -/
def avgMonthlyIncome (monthlyTotals : List ℚ) : ℚ :=
  if monthlyTotals.length = 0 then 0 else monthlyTotals.sum / monthlyTotals.length

/-- The income-related columns of a `users` row. -/
structure IncomeUser where
  monthlyIncome : ℚ
  incomeUpdateDeclined : Bool
  lastPromptDaysAgo : Option ℚ
  deriving DecidableEq

/-- Observable outcome of `checkIncomeUpdatePrompt`. -/
inductive IncomePromptOutcome
  | cooldown
  | notEnoughHistory
  | invalidIncome
  | notSignificant
  | prompted
  deriving DecidableEq

/-- The cooldown of step 1 has elapsed (30 days normally, 60 after a
decline); trivially true when the user was never prompted. -/
def cooldownElapsed (u : IncomeUser) : Prop :=
  match u.lastPromptDaysAgo with
  | none => True
  | some d => (if u.incomeUpdateDeclined then cooldownDaysDeclined else cooldownDaysNormal) ≤ d

/-- `checkIncomeUpdatePrompt(user)` (src/server.js lines 2241-2333):
cooldown, minimum history, positive declared income and a ≥20% relative
difference gate the prompt; when all pass, the prompt is sent (and
`last_income_update_prompt` is stamped). -/
def checkIncomeUpdatePrompt (u : IncomeUser) (monthlyTotals : List ℚ) :
    IncomePromptOutcome :=
  let onCooldown : Bool :=
    match u.lastPromptDaysAgo with
    | none => false
    | some d =>
      decide (d < if u.incomeUpdateDeclined then cooldownDaysDeclined else cooldownDaysNormal)
  if onCooldown then .cooldown
  else if monthlyTotals.length < minMonthsHistory then .notEnoughHistory
  else if u.monthlyIncome ≤ 0 then .invalidIncome
  else
    let avgIncome := avgMonthlyIncome monthlyTotals
    let percentDiff := |(avgIncome - u.monthlyIncome) / u.monthlyIncome * 100|
    if percentDiff < diffThresholdPercent then .notSignificant
    else .prompted

/-- `handleIncomeUpdateResponse(user, { accepted })` (src/server.js lines
2336-2389): acceptance sets the declared income to the rounded 3-month
average and resets the decline flag; decline only sets the flag. -/
def handleIncomeUpdateResponse (u : IncomeUser) (monthlyTotals : List ℚ)
    (accepted : Bool) : IncomeUser :=
  if accepted then
    { u with monthlyIncome := ((jsRound (avgMonthlyIncome monthlyTotals) : ℤ) : ℚ),
             incomeUpdateDeclined := false }
  else
    { u with incomeUpdateDeclined := true }

theorem jsRound_intCast (n : ℤ) : jsRound (n : ℚ) = n := by
  unfold jsRound
  rw [add_comm, Int.floor_add_int]
  norm_num

/-- C6: with declared income 500000, a trailing-3-month average of 650000
over at least 2 income months, and the cooldown elapsed, the
re-estimation prompt is sent; accepting sets the declared income to
650000 and clears the decline flag; declining sets the decline flag
(which switches the cooldown to the longer 60 days). -/
theorem c6_income_reestimation_scenario (u : IncomeUser) (monthlyTotals : List ℚ)
    (h1 : u.monthlyIncome = 500000)
    (h2 : avgMonthlyIncome monthlyTotals = 650000)
    (h3 : minMonthsHistory ≤ monthlyTotals.length)
    (h4 : cooldownElapsed u) :
    checkIncomeUpdatePrompt u monthlyTotals = .prompted ∧
    (handleIncomeUpdateResponse u monthlyTotals true).monthlyIncome = 650000 ∧
    (handleIncomeUpdateResponse u monthlyTotals true).incomeUpdateDeclined = false ∧
    (handleIncomeUpdateResponse u monthlyTotals false).incomeUpdateDeclined = true := by
  have hcool : (match u.lastPromptDaysAgo with
      | none => false
      | some d =>
        decide (d < if u.incomeUpdateDeclined then cooldownDaysDeclined
          else cooldownDaysNormal)) = false := by
    unfold cooldownElapsed at h4
    cases hl : u.lastPromptDaysAgo with
    | none => rfl
    | some d =>
      rw [hl] at h4
      simpa using not_lt.mpr h4
  refine ⟨?_, ?_, ?_, ?_⟩
  · unfold checkIncomeUpdatePrompt
    rw [hcool]
    rw [if_neg (Bool.false_ne_true)]
    rw [if_neg (by omega)]
    rw [if_neg (by rw [h1]; norm_num)]
    rw [if_neg (by rw [h1, h2]; norm_num [diffThresholdPercent])]
  · unfold handleIncomeUpdateResponse
    rw [if_pos rfl]
    show ((jsRound (avgMonthlyIncome monthlyTotals) : ℤ) : ℚ) = 650000
    rw [h2]
    rw [show (650000 : ℚ) = ((650000 : ℤ) : ℚ) by norm_num]
    rw [jsRound_intCast]
  · unfold handleIncomeUpdateResponse
    rw [if_pos rfl]
  · unfold handleIncomeUpdateResponse
    rw [if_neg (Bool.false_ne_true)]

/-- Witness for C6: declared income 500000, two income months of 650000
each, never prompted before. -/
theorem c6_income_reestimation_scenario_witness :
    checkIncomeUpdatePrompt ⟨500000, false, none⟩ [650000, 650000] = .prompted ∧
    (handleIncomeUpdateResponse ⟨500000, false, none⟩ [650000, 650000] true).monthlyIncome =
      650000 ∧
    (handleIncomeUpdateResponse ⟨500000, false, none⟩ [650000, 650000]
      true).incomeUpdateDeclined = false ∧
    (handleIncomeUpdateResponse ⟨500000, false, none⟩ [650000, 650000]
      false).incomeUpdateDeclined = true :=
  c6_income_reestimation_scenario ⟨500000, false, none⟩ [650000, 650000] rfl
    (by norm_num [avgMonthlyIncome]) (by norm_num [minMonthsHistory]) trivial

/-!  Mark-as-fixed (`handleMarkAsFixed`, src/server.js lines 3058-3162)
and the duplicate lookup `findFixedExpenseByDescription` (lines
2074-2081). -/

/-- `LOWER(description)` of a PostgreSQL text column. -/
def descKey (s : String) : List Char := s.data.map jsToLower

/-- The `LOWER(description) = LOWER($2)` comparison of
`findFixedExpenseByDescription`. -/
def descMatches (a b : String) : Bool := decide (descKey a = descKey b)

/-- `findFixedExpenseByDescription(userId, description)` over the user's
`fixed_expenses` rows (src/server.js lines 2074-2081; `rows[0] || null`). -/
def findFixedExpenseByDescription (fes : List FixedExpenseRow) (description : String) :
    Option FixedExpenseRow :=
  fes.find? (fun fe => descMatches fe.description description)

/-- Per-user state touched by `handleMarkAsFixed`: the user's
`fixed_expenses` rows, their transactions, the next fresh SERIAL id, and
`pending_fixed_expense_id`. -/
structure FixedState where
  fixedExpenses : List FixedExpenseRow
  transactions : List LedgerTx
  nextId : ℤ
  pending : Option ℤ
  deriving DecidableEq

/-- Observable outcome of the mark-as-fixed core. -/
inductive MarkAsFixedOutcome
  | alreadyActive
  | reactivated
  | created
  deriving DecidableEq

/-- The core of `handleMarkAsFixed` once the transaction row is loaded
(src/server.js lines 3118-3161): an active fixed expense with the same
case-insensitive description reports "already in your fixed expenses" and
only clears the pending state; an inactive one is reactivated in place
(amount refreshed, no new row); otherwise a new active row is inserted
with description `tx.description || tx.category_name`.  In the latter two
cases the transaction is linked and the pending state is set to the fixed
expense id to ask for a reminder day. -/
def markAsFixedCore (s : FixedState) (tx : LedgerTx) (categoryName : String) :
    MarkAsFixedOutcome × FixedState :=
  match findFixedExpenseByDescription s.fixedExpenses tx.description with
  | some fe =>
    if fe.isActive then
      (.alreadyActive, { s with pending := none })
    else
      (.reactivated,
        { s with
            fixedExpenses := s.fixedExpenses.map (fun x =>
              if x.id = fe.id then
                { x with typicalAmount := tx.amount, isActive := true } else x),
            transactions := s.transactions.map (fun t =>
              if t.id = tx.id then
                { t with expenseType := "fixed", fixedExpenseId := some fe.id } else t),
            pending := some fe.id })
  | none =>
    (.created,
      { s with
          fixedExpenses := s.fixedExpenses ++
            [⟨s.nextId, if tx.description = "" then categoryName else tx.description,
              tx.amount, tx.categoryId, none, true⟩],
          transactions := s.transactions.map (fun t =>
            if t.id = tx.id then
              { t with expenseType := "fixed", fixedExpenseId := some s.nextId } else t),
          nextId := s.nextId + 1,
          pending := some s.nextId })

/-- The spec invariant: at most one fixed expense per (user,
case-insensitive description). -/
def atMostOnePerDescription (fes : List FixedExpenseRow) : Prop :=
  List.Pairwise (fun a b => descKey a.description ≠ descKey b.description) fes

theorem countP_desc_le_one (fes : List FixedExpenseRow) (d : String)
    (h : atMostOnePerDescription fes) :
    fes.countP (fun x => descMatches x.description d) ≤ 1 := by
  induction fes with
  | nil => simp
  | cons a t ih =>
    have hp := List.pairwise_cons.mp h
    rw [List.countP_cons]
    by_cases ha : descMatches a.description d = true
    · have hz : t.countP (fun x => descMatches x.description d) = 0 := by
        rw [List.countP_eq_zero]
        intro x hx hmx
        have hkey1 : descKey a.description = descKey d := by
          simpa [descMatches] using ha
        have hkey2 : descKey x.description = descKey d := by
          simpa [descMatches] using hmx
        exact hp.1 x hx (by rw [hkey1, hkey2])
      rw [hz]
      simp [ha]
    · have hb : (decide (descMatches a.description d = true) : Bool) = false := by
        simpa using ha
      calc t.countP (fun x => descMatches x.description d) +
            (if descMatches a.description d = true then 1 else 0)
          ≤ 1 + 0 := by
            have := ih hp.2
            simp [ha]
            omega
        _ = 1 := rfl

/-- C7: marking as fixed a transaction whose description already matches
an Active fixed expense (case-insensitively) reports "already active" and
changes nothing but the cleared pending state; exactly one fixed-expense
row matches that description before and after, and the
at-most-one-per-description invariant is preserved. -/
theorem c7_mark_as_fixed_already_active (s : FixedState) (tx : LedgerTx)
    (categoryName : String) (fe : FixedExpenseRow)
    (hinv : atMostOnePerDescription s.fixedExpenses)
    (hfind : findFixedExpenseByDescription s.fixedExpenses tx.description = some fe)
    (hact : fe.isActive = true) :
    markAsFixedCore s tx categoryName = (.alreadyActive, { s with pending := none }) ∧
    (markAsFixedCore s tx categoryName).2.fixedExpenses = s.fixedExpenses ∧
    s.fixedExpenses.countP (fun x => descMatches x.description tx.description) = 1 ∧
    atMostOnePerDescription (markAsFixedCore s tx categoryName).2.fixedExpenses := by
  have hmain : markAsFixedCore s tx categoryName =
      (.alreadyActive, { s with pending := none }) := by
    unfold markAsFixedCore
    rw [hfind]
    simp only [hact, if_true]
  have hcount : s.fixedExpenses.countP
      (fun x => descMatches x.description tx.description) = 1 := by
    have hle := countP_desc_le_one s.fixedExpenses tx.description hinv
    have hmem := List.mem_of_find?_eq_some hfind
    have hpred : descMatches fe.description tx.description = true := by
      have hq := List.find?_some hfind
      simpa using hq
    have hpos : 0 < s.fixedExpenses.countP
        (fun x => descMatches x.description tx.description) :=
      List.countP_pos_iff.mpr ⟨fe, hmem, by simpa using hpred⟩
    omega
  refine ⟨hmain, by rw [hmain], hcount, by rw [hmain]; exact hinv⟩

/-- Witness for C7: an active fixed expense "netflix" and a transaction
described "Netflix" (different case). -/
theorem c7_mark_as_fixed_already_active_witness :
    markAsFixedCore
        ⟨[⟨1, "netflix", 5000, none, none, true⟩], [], 2, some (-7)⟩
        ⟨7, 1, 5990, none, "Netflix", 0, false, "variable", none⟩ "otros" =
      (.alreadyActive, ⟨[⟨1, "netflix", 5000, none, none, true⟩], [], 2, none⟩) :=
  (c7_mark_as_fixed_already_active
      ⟨[⟨1, "netflix", 5000, none, none, true⟩], [], 2, some (-7)⟩
      ⟨7, 1, 5990, none, "Netflix", 0, false, "variable", none⟩ "otros"
      ⟨1, "netflix", 5000, none, none, true⟩
      (by simp [atMostOnePerDescription]) (by decide) rfl).1

end Ordenate
